import Mathlib

/-!
Shallow embedding of the two rate limiters of this repository:
`src/sliding_window_rate_limiter.py` (class `SlidingWindowRateLimiter`) and
`src/throttling_rate_limiter.py` (class `ThrottlingRateLimiter`).

Python floats for timestamps and durations are modelled as rationals (`ℚ`);
the Python `dict` state is modelled as a function into `Option`, so that
"key absent from the dict" is `none`.  Each method that in Python reads the
ambient clock with `time.time()` takes the clock reading as an explicit
argument `t`; mutating methods return the new limiter state alongside the
Python return value.
-/

namespace SlidingWindow

/-- State of `SlidingWindowRateLimiter`: fields `window_size`, `max_requests`
and `user_history` (a dict mapping a user id to a deque of timestamps,
oldest first; an absent key is `none`). -/
structure Limiter where
  window_size : ℚ
  max_requests : ℕ
  user_history : String → Option (List ℚ)

/-- The `while` loop of `_cleanup_window`: pop from the left while the front
timestamp is `< current_time - window_size`.  On a deque this is exactly
`List.dropWhile`. -/
def cleanupLoop (window_size current_time : ℚ) (h : List ℚ) : List ℚ :=
  h.dropWhile (fun ts => decide (ts < current_time - window_size))

/-- `SlidingWindowRateLimiter._cleanup_window(user_id, current_time)`:
returns early if the user is absent; otherwise pops expired timestamps from
the front and deletes the user's entry if the deque became empty. -/
def cleanup_window (l : Limiter) (user_id : String) (current_time : ℚ) : Limiter :=
  match l.user_history user_id with
  | none => l
  | some h =>
    let h2 := cleanupLoop l.window_size current_time h
    if h2.isEmpty then
      { l with user_history := fun v => if v = user_id then none else l.user_history v }
    else
      { l with user_history := fun v => if v = user_id then some h2 else l.user_history v }

/-- `SlidingWindowRateLimiter.can_send_message(user_id)` at clock reading
`t`: cleans up, then returns `len(self.user_history.get(user_id, [])) <
self.max_requests`, together with the (pruned) state. -/
def can_send_message (l : Limiter) (user_id : String) (t : ℚ) : Bool × Limiter :=
  let l2 := cleanup_window l user_id t
  (decide (((l2.user_history user_id).getD []).length < l2.max_requests), l2)

/-- `SlidingWindowRateLimiter.record_message(user_id)` at clock reading `t`:
if `can_send_message` is true, append `t` to the user's deque (creating it
if absent) and return `True`; otherwise return `False`. -/
def record_message (l : Limiter) (user_id : String) (t : ℚ) : Bool × Limiter :=
  let r := can_send_message l user_id t
  if r.1 then
    let l2 := r.2
    let h := (l2.user_history user_id).getD []
    (true, { l2 with user_history := fun v => if v = user_id then some (h ++ [t]) else l2.user_history v })
  else
    (false, r.2)

/-- `SlidingWindowRateLimiter.time_until_next_allowed(user_id)` at clock
reading `t`: cleans up; returns `0.0` if the user is absent or below the
limit, else `max(0.0, window_size - (t - earliest_request_time))` where
`earliest_request_time` is the front of the deque. -/
def time_until_next_allowed (l : Limiter) (user_id : String) (t : ℚ) : ℚ × Limiter :=
  let l2 := cleanup_window l user_id t
  match l2.user_history user_id with
  | none => (0, l2)
  | some h =>
    if h.length < l2.max_requests then (0, l2)
    else (max 0 (l2.window_size - (t - h.headD 0)), l2)

end SlidingWindow

namespace Throttling

/-- State of `ThrottlingRateLimiter`: fields `min_interval` and
`last_message_time` (a dict mapping a user id to the last accepted
timestamp; an absent key is `none`). -/
structure Limiter where
  min_interval : ℚ
  last_message_time : String → Option ℚ

/-- `ThrottlingRateLimiter.can_send_message(user_id)` at clock reading `t`:
`t - self.last_message_time.get(user_id, 0.0) >= self.min_interval`. -/
def can_send_message (l : Limiter) (user_id : String) (t : ℚ) : Bool :=
  decide (t - (l.last_message_time user_id).getD 0 ≥ l.min_interval)

/-- `ThrottlingRateLimiter.record_message(user_id)` at clock reading `t`:
if allowed, store `t` as the user's last message time and return `True`;
otherwise return `False` without mutation. -/
def record_message (l : Limiter) (user_id : String) (t : ℚ) : Bool × Limiter :=
  if can_send_message l user_id t then
    (true, { l with last_message_time := fun v => if v = user_id then some t else l.last_message_time v })
  else
    (false, l)

/-- `ThrottlingRateLimiter.time_until_next_allowed(user_id)` at clock
reading `t`: `max(0.0, min_interval - (t - last_time))` with `last_time`
defaulting to `0.0`. -/
def time_until_next_allowed (l : Limiter) (user_id : String) (t : ℚ) : ℚ :=
  max 0 (l.min_interval - (t - (l.last_message_time user_id).getD 0))

end Throttling

section DropWhileLemmas

variable {α : Type}

/-- The element at which `dropWhile` stopped fails the predicate. -/
lemma dropWhile_head_not (p : α → Bool) (l : List α) {a : α} {r : List α}
    (hd : l.dropWhile p = a :: r) : p a = false := by
  induction l with
  | nil => simp at hd
  | cons b bs ih =>
    rw [List.dropWhile_cons] at hd
    by_cases hb : p b = true
    · rw [if_pos hb] at hd
      exact ih hd
    · rw [if_neg hb] at hd
      cases hd
      simpa using hb

/-- `dropWhile` is idempotent. -/
lemma dropWhile_idem (p : α → Bool) (l : List α) :
    (l.dropWhile p).dropWhile p = l.dropWhile p := by
  cases hd : l.dropWhile p with
  | nil => simp
  | cons a r =>
    rw [List.dropWhile_cons, if_neg]
    simp [dropWhile_head_not p l hd]

end DropWhileLemmas

/-- On a nondecreasing list, every element surviving the prune of elements
`< c` from the front is `≥ c`. -/
lemma mem_dropWhile_lt_ge {c : ℚ} {l : List ℚ} (hs : l.Pairwise (· ≤ ·)) :
    ∀ x ∈ l.dropWhile (fun ts => decide (ts < c)), c ≤ x := by
  intro x hx
  cases hd : l.dropWhile (fun ts => decide (ts < c)) with
  | nil => rw [hd] at hx; simp at hx
  | cons a r =>
    rw [hd] at hx
    have ha : c ≤ a := by
      have := dropWhile_head_not _ _ hd
      simpa [not_lt] using this
    have hpw : (a :: r).Pairwise (fun x y : ℚ => x ≤ y) := by
      rw [← hd]
      exact hs.sublist (List.dropWhile_sublist _)
    rcases List.mem_cons.mp hx with rfl | hxr
    · exact ha
    · exact le_trans ha ((List.pairwise_cons.mp hpw).1 x hxr)

namespace SlidingWindow

/-- Two limiters with equal fields are equal. -/
lemma Limiter.ext_fields {l1 l2 : Limiter} (hw : l1.window_size = l2.window_size)
    (hm : l1.max_requests = l2.max_requests)
    (hh : l1.user_history = l2.user_history) : l1 = l2 := by
  cases l1; cases l2; simp_all

/-- The effect of `_cleanup_window` on one dict entry, as a function of the
entry's previous value. -/
def cleanedHistory (ws t : ℚ) : Option (List ℚ) → Option (List ℚ)
  | none => none
  | some h => if (cleanupLoop ws t h).isEmpty then none else some (cleanupLoop ws t h)

/-- States reachable from a freshly constructed
`SlidingWindowRateLimiter(window_size, max_requests)` by any sequence of the
three public operations, each invoked at an arbitrary clock reading. -/
inductive Reachable (ws : ℚ) (mr : ℕ) : Limiter → Prop
  | init : Reachable ws mr ⟨ws, mr, fun _ => none⟩
  | can_send_step (l : Limiter) (u : String) (t : ℚ) :
      Reachable ws mr l → Reachable ws mr (can_send_message l u t).2
  | record_step (l : Limiter) (u : String) (t : ℚ) :
      Reachable ws mr l → Reachable ws mr (record_message l u t).2
  | wait_step (l : Limiter) (u : String) (t : ℚ) :
      Reachable ws mr l → Reachable ws mr (time_until_next_allowed l u t).2

lemma cleanup_window_window_size (l : Limiter) (u : String) (t : ℚ) :
    (cleanup_window l u t).window_size = l.window_size := by
  unfold cleanup_window
  cases hu : l.user_history u with
  | none => rfl
  | some h => by_cases he : (cleanupLoop l.window_size t h).isEmpty <;> simp [he]

lemma cleanup_window_max_requests (l : Limiter) (u : String) (t : ℚ) :
    (cleanup_window l u t).max_requests = l.max_requests := by
  unfold cleanup_window
  cases hu : l.user_history u with
  | none => rfl
  | some h => by_cases he : (cleanupLoop l.window_size t h).isEmpty <;> simp [he]

/-- `_cleanup_window` rewrites the cleaned user's entry through
`cleanedHistory` and leaves every other entry alone. -/
lemma cleanup_window_history (l : Limiter) (u : String) (t : ℚ) (v : String) :
    (cleanup_window l u t).user_history v =
      if v = u then cleanedHistory l.window_size t (l.user_history u)
      else l.user_history v := by
  unfold cleanup_window cleanedHistory
  cases hu : l.user_history u with
  | none =>
    by_cases hv : v = u
    · subst hv; simp [hu]
    · simp [hv]
  | some h =>
    by_cases he : (cleanupLoop l.window_size t h).isEmpty <;>
      by_cases hv : v = u <;> simp [he, hv]

lemma can_send_message_fst (l : Limiter) (u : String) (t : ℚ) :
    (can_send_message l u t).1 =
      decide (((cleanedHistory l.window_size t (l.user_history u)).getD []).length
        < l.max_requests) := by
  simp [can_send_message, cleanup_window_history, cleanup_window_max_requests]

lemma can_send_message_snd (l : Limiter) (u : String) (t : ℚ) :
    (can_send_message l u t).2 = cleanup_window l u t := rfl

lemma time_until_next_allowed_fst (l : Limiter) (u : String) (t : ℚ) :
    (time_until_next_allowed l u t).1 =
      match cleanedHistory l.window_size t (l.user_history u) with
      | none => 0
      | some h =>
        if h.length < l.max_requests then 0
        else max 0 (l.window_size - (t - h.headD 0)) := by
  have hu : (cleanup_window l u t).user_history u
      = cleanedHistory l.window_size t (l.user_history u) := by
    simp [cleanup_window_history]
  cases hc : cleanedHistory l.window_size t (l.user_history u) with
  | none => simp [time_until_next_allowed, hu, hc]
  | some h =>
    by_cases hl : h.length < l.max_requests <;>
      simp [time_until_next_allowed, hu, hc, hl,
        cleanup_window_max_requests, cleanup_window_window_size]

lemma time_until_next_allowed_snd (l : Limiter) (u : String) (t : ℚ) :
    (time_until_next_allowed l u t).2 = cleanup_window l u t := by
  cases hu : (cleanup_window l u t).user_history u with
  | none => simp [time_until_next_allowed, hu]
  | some h =>
    by_cases hl : h.length < (cleanup_window l u t).max_requests <;>
      simp [time_until_next_allowed, hu, hl]

lemma cleanup_window_of_absent {l : Limiter} {u : String} (t : ℚ)
    (hu : l.user_history u = none) : cleanup_window l u t = l := by
  unfold cleanup_window
  rw [hu]

lemma cleanupLoop_idem (ws t : ℚ) (h : List ℚ) :
    cleanupLoop ws t (cleanupLoop ws t h) = cleanupLoop ws t h :=
  dropWhile_idem _ h

lemma cleanedHistory_idem (ws t : ℚ) (o : Option (List ℚ)) :
    cleanedHistory ws t (cleanedHistory ws t o) = cleanedHistory ws t o := by
  cases o with
  | none => rfl
  | some h =>
    by_cases he : (cleanupLoop ws t h).isEmpty
    · simp [cleanedHistory, he]
    · simp [cleanedHistory, he, cleanupLoop_idem]

/-- A nonempty cleaned history starts at or after the window boundary. -/
lemma cleanedHistory_head_ge (ws t : ℚ) (o : Option (List ℚ)) {h : List ℚ}
    (hc : cleanedHistory ws t o = some h) : t - ws ≤ h.headD 0 := by
  cases o with
  | none => simp [cleanedHistory] at hc
  | some h0 =>
    by_cases he : (cleanupLoop ws t h0).isEmpty
    · simp [cleanedHistory, he] at hc
    · have hh : h = cleanupLoop ws t h0 := by
        simp only [cleanedHistory] at hc
        rw [if_neg he] at hc
        exact (Option.some_inj.mp hc).symm
      subst hh
      cases hd : cleanupLoop ws t h0 with
      | nil => simp [hd] at he
      | cons a r =>
        have := dropWhile_head_not _ h0 hd
        simpa [not_lt] using this

/-- A nonempty cleaned history is never the empty list. -/
lemma cleanedHistory_ne_nil (ws t : ℚ) (o : Option (List ℚ)) {h : List ℚ}
    (hc : cleanedHistory ws t o = some h) : h ≠ [] := by
  cases o with
  | none => simp [cleanedHistory] at hc
  | some h0 =>
    by_cases he : (cleanupLoop ws t h0).isEmpty
    · simp [cleanedHistory, he] at hc
    · have hh : h = cleanupLoop ws t h0 := by
        simp only [cleanedHistory] at hc
        rw [if_neg he] at hc
        exact (Option.some_inj.mp hc).symm
      subst hh
      simpa [List.isEmpty_iff] using he

/-- Cleaning a dict entry never lengthens it. -/
lemma cleanedHistory_length_le (ws t : ℚ) (o : Option (List ℚ)) :
    ((cleanedHistory ws t o).getD []).length ≤ (o.getD []).length := by
  cases o with
  | none => simp [cleanedHistory]
  | some h =>
    by_cases he : (cleanupLoop ws t h).isEmpty
    · simp [cleanedHistory, he]
    · simp only [cleanedHistory]
      rw [if_neg he]
      simpa [cleanupLoop] using
        (List.dropWhile_sublist (fun ts => decide (ts < t - ws))).length_le

lemma record_message_fst (l : Limiter) (u : String) (t : ℚ) :
    (record_message l u t).1 = (can_send_message l u t).1 := by
  unfold record_message
  by_cases hc : (can_send_message l u t).1 <;> simp [hc]

lemma record_message_snd_of_false {l : Limiter} {u : String} {t : ℚ}
    (hc : (can_send_message l u t).1 = false) :
    (record_message l u t).2 = cleanup_window l u t := by
  unfold record_message
  simp [hc, can_send_message_snd]

lemma record_message_snd_of_true {l : Limiter} {u : String} {t : ℚ}
    (hc : (can_send_message l u t).1 = true) :
    (record_message l u t).2 =
      { cleanup_window l u t with
        user_history := fun v =>
          if v = u then some ((((cleanup_window l u t).user_history u).getD []) ++ [t])
          else (cleanup_window l u t).user_history v } := by
  unfold record_message
  simp [hc, can_send_message_snd]

lemma record_message_window_size (l : Limiter) (u : String) (t : ℚ) :
    (record_message l u t).2.window_size = l.window_size := by
  by_cases hc : (can_send_message l u t).1
  · rw [record_message_snd_of_true hc]
    exact cleanup_window_window_size l u t
  · rw [record_message_snd_of_false (Bool.not_eq_true _ ▸ hc)]
    exact cleanup_window_window_size l u t

lemma record_message_max_requests (l : Limiter) (u : String) (t : ℚ) :
    (record_message l u t).2.max_requests = l.max_requests := by
  by_cases hc : (can_send_message l u t).1
  · rw [record_message_snd_of_true hc]
    exact cleanup_window_max_requests l u t
  · rw [record_message_snd_of_false (Bool.not_eq_true _ ▸ hc)]
    exact cleanup_window_max_requests l u t

/-- Recording for one user leaves every other user's dict entry unchanged. -/
lemma record_message_history_other {l : Limiter} {u v : String} (t : ℚ)
    (hv : v ≠ u) : (record_message l u t).2.user_history v = l.user_history v := by
  by_cases hc : (can_send_message l u t).1
  · rw [record_message_snd_of_true hc]
    simp [hv, cleanup_window_history]
  · rw [record_message_snd_of_false (Bool.not_eq_true _ ▸ hc)]
    simp [hv, cleanup_window_history]

lemma can_send_message_fst_congr {l1 l2 : Limiter} (u : String) (t : ℚ)
    (hw : l1.window_size = l2.window_size) (hm : l1.max_requests = l2.max_requests)
    (hh : l1.user_history u = l2.user_history u) :
    (can_send_message l1 u t).1 = (can_send_message l2 u t).1 := by
  rw [can_send_message_fst, can_send_message_fst, hw, hm, hh]

/-- Cleanup never lengthens any user's stored deque. -/
lemma cleanup_window_length_le (l : Limiter) (u : String) (t : ℚ) (v : String) :
    (((cleanup_window l u t).user_history v).getD []).length
      ≤ ((l.user_history v).getD []).length := by
  rw [cleanup_window_history]
  by_cases hv : v = u
  · rw [if_pos hv, hv]
    exact cleanedHistory_length_le _ _ _
  · rw [if_neg hv]

lemma cleanup_window_idem (l : Limiter) (u : String) (t : ℚ) :
    cleanup_window (cleanup_window l u t) u t = cleanup_window l u t := by
  apply Limiter.ext_fields
  · rw [cleanup_window_window_size]
  · rw [cleanup_window_max_requests]
  · funext v
    rw [cleanup_window_history, cleanup_window_history]
    by_cases hv : v = u
    · simp [hv, cleanup_window_window_size, cleanup_window_history, cleanedHistory_idem]
    · simp [hv]

end SlidingWindow

namespace Throttling

lemma Limiter.ext_throttle_fields {l1 l2 : Limiter} (hi : l1.min_interval = l2.min_interval)
    (hh : l1.last_message_time = l2.last_message_time) : l1 = l2 := by
  cases l1; cases l2; simp_all

lemma record_returns_can_send (l : Limiter) (u : String) (t : ℚ) :
    (record_message l u t).1 = can_send_message l u t := by
  unfold record_message
  by_cases hc : can_send_message l u t <;> simp [hc]

lemma record_state_of_true {l : Limiter} {u : String} {t : ℚ}
    (hc : can_send_message l u t = true) :
    (record_message l u t).2 =
      { l with last_message_time := fun v =>
          if v = u then some t else l.last_message_time v } := by
  unfold record_message
  simp [hc]

lemma record_state_of_false {l : Limiter} {u : String} {t : ℚ}
    (hc : can_send_message l u t = false) :
    (record_message l u t).2 = l := by
  unfold record_message
  simp [hc]

end Throttling


/-- Claim C9: the cleanup pass of the sliding-window limiter is idempotent —
running `_cleanup_window(identity, t)` twice yields the same state as
running it once — and consequently two successive `can_send_message` calls
at the same clock reading return the same boolean and leave the same
state. -/
theorem C9_cleanup_idempotent (l : SlidingWindow.Limiter) (u : String) (t : ℚ) :
    SlidingWindow.cleanup_window (SlidingWindow.cleanup_window l u t) u t
      = SlidingWindow.cleanup_window l u t ∧
    (SlidingWindow.can_send_message (SlidingWindow.can_send_message l u t).2 u t).1
      = (SlidingWindow.can_send_message l u t).1 ∧
    (SlidingWindow.can_send_message (SlidingWindow.can_send_message l u t).2 u t).2
      = (SlidingWindow.can_send_message l u t).2 := by
  refine ⟨SlidingWindow.cleanup_window_idem l u t, ?_, ?_⟩
  · rw [SlidingWindow.can_send_message_snd,
      SlidingWindow.can_send_message_fst, SlidingWindow.can_send_message_fst,
      SlidingWindow.cleanup_window_window_size, SlidingWindow.cleanup_window_max_requests]
    rw [show (SlidingWindow.cleanup_window l u t).user_history u
        = SlidingWindow.cleanedHistory l.window_size t (l.user_history u) by
      simp [SlidingWindow.cleanup_window_history]]
    rw [SlidingWindow.cleanedHistory_idem]
  · simp only [SlidingWindow.can_send_message_snd]
    exact SlidingWindow.cleanup_window_idem l u t

/-- Claim C5: a sliding-window limiter configured with `max_requests = 0`
rejects everything — for every state, identity and clock reading,
`can_send_message` and `record_message` both return `False`, since
`len < 0` is never true. -/
theorem C5_max_requests_zero (l : SlidingWindow.Limiter) (u : String) (t : ℚ)
    (h0 : l.max_requests = 0) :
    (SlidingWindow.can_send_message l u t).1 = false ∧
    (SlidingWindow.record_message l u t).1 = false := by
  have hc : (SlidingWindow.can_send_message l u t).1 = false := by
    rw [SlidingWindow.can_send_message_fst, h0]
    simp
  exact ⟨hc, by rw [SlidingWindow.record_message_fst, hc]⟩

/-- Witness for C5 at a concrete fresh limiter with `max_requests = 0`. -/
theorem C5_max_requests_zero_witness :
    (SlidingWindow.can_send_message ⟨10, 0, fun _ => none⟩ "u" 3).1 = false ∧
    (SlidingWindow.record_message ⟨10, 0, fun _ => none⟩ "u" 3).1 = false :=
  C5_max_requests_zero ⟨10, 0, fun _ => none⟩ "u" 3 rfl

/-- Claim C6: for the throttle limiter, if the first `record_message` for an
identity is admitted at clock reading `t1`, then a second `record_message`
for that identity at clock reading `t2` is admitted exactly when the
elapsed time `t2 - t1` is at least `min_interval`; so the pair of results
is `(True, False)` for elapsed `< min_interval` and `(True, True)` for
elapsed `≥ min_interval`. -/
theorem C6_throttle_consecutive (l : Throttling.Limiter) (u : String) (t1 t2 : ℚ)
    (h1 : (Throttling.record_message l u t1).1 = true) :
    (Throttling.record_message (Throttling.record_message l u t1).2 u t2).1
      = decide (l.min_interval ≤ t2 - t1) := by
  have hc : Throttling.can_send_message l u t1 = true := by
    rw [← Throttling.record_returns_can_send]
    exact h1
  rw [Throttling.record_returns_can_send, Throttling.record_state_of_true hc]
  simp [Throttling.can_send_message, ge_iff_le]

/-- Witness for C6: concrete limiter with `min_interval = 10`, first record
at `t1 = 20`, second at `t2 = 25` (elapsed 5 < 10, so rejected). -/
theorem C6_throttle_consecutive_witness :
    (Throttling.record_message ⟨10, fun _ => none⟩ "u" 20).1 = true ∧
    (Throttling.record_message
      (Throttling.record_message ⟨10, fun _ => none⟩ "u" 20).2 "u" 25).1
      = decide ((10 : ℚ) ≤ 25 - 20) := by
  have h1 : (Throttling.record_message ⟨10, fun _ => none⟩ "u" 20).1 = true := by
    rw [Throttling.record_returns_can_send]
    norm_num [Throttling.can_send_message]
  exact ⟨h1, C6_throttle_consecutive ⟨10, fun _ => none⟩ "u" 20 25 h1⟩

/-- Claim C8: sliding-window identities never interfere — `record_message`
for identity `a` leaves identity `b`'s stored history unchanged and does
not change the boolean that `can_send_message(b)` returns at any clock
reading. -/
theorem C8_identity_isolation (l : SlidingWindow.Limiter) (a b : String)
    (t t2 : ℚ) (hab : a ≠ b) :
    (SlidingWindow.record_message l a t).2.user_history b = l.user_history b ∧
    (SlidingWindow.can_send_message (SlidingWindow.record_message l a t).2 b t2).1
      = (SlidingWindow.can_send_message l b t2).1 := by
  have hh : (SlidingWindow.record_message l a t).2.user_history b = l.user_history b :=
    SlidingWindow.record_message_history_other t (Ne.symm hab)
  refine ⟨hh, ?_⟩
  apply SlidingWindow.can_send_message_fst_congr
  · exact SlidingWindow.record_message_window_size l a t
  · exact SlidingWindow.record_message_max_requests l a t
  · exact hh

/-- Witness for C8 at a concrete limiter and two distinct identities. -/
theorem C8_identity_isolation_witness :
    (SlidingWindow.record_message ⟨10, 1, fun _ => none⟩ "a" 3).2.user_history "b"
      = (⟨10, 1, fun _ => none⟩ : SlidingWindow.Limiter).user_history "b" ∧
    (SlidingWindow.can_send_message
        (SlidingWindow.record_message ⟨10, 1, fun _ => none⟩ "a" 3).2 "b" 3).1
      = (SlidingWindow.can_send_message ⟨10, 1, fun _ => none⟩ "b" 3).1 :=
  C8_identity_isolation ⟨10, 1, fun _ => none⟩ "a" "b" 3 3 (by decide)

/-- Claim C2: a rejected `record_message` is a complete no-op for both
limiters — whenever it returns `False` the state after the call equals the
state before it.  For the sliding-window limiter this holds on states
satisfying the limiter's own invariant (no stored deque is empty and no
deque exceeds `max_requests` entries), which every reachable state
satisfies. -/
theorem C2_rejection_noop (ls : SlidingWindow.Limiter) (lt : Throttling.Limiter)
    (u : String) (t : ℚ)
    (hinv : ∀ v h, ls.user_history v = some h → h ≠ [] ∧ h.length ≤ ls.max_requests) :
    ((SlidingWindow.record_message ls u t).1 = false →
      (SlidingWindow.record_message ls u t).2 = ls) ∧
    ((Throttling.record_message lt u t).1 = false →
      (Throttling.record_message lt u t).2 = lt) := by
  constructor
  · intro hr
    have hc : (SlidingWindow.can_send_message ls u t).1 = false := by
      rw [← SlidingWindow.record_message_fst]
      exact hr
    rw [SlidingWindow.record_message_snd_of_false hc]
    have hlen : ls.max_requests ≤
        ((SlidingWindow.cleanedHistory ls.window_size t (ls.user_history u)).getD []).length := by
      rw [SlidingWindow.can_send_message_fst] at hc
      simpa [not_lt] using hc
    cases hu : ls.user_history u with
    | none => exact SlidingWindow.cleanup_window_of_absent t hu
    | some h =>
      obtain ⟨hne, hhl⟩ := hinv u h hu
      rw [hu] at hlen
      by_cases he : (SlidingWindow.cleanupLoop ls.window_size t h).isEmpty
      · rw [show SlidingWindow.cleanedHistory ls.window_size t (some h) = none by
          simp [SlidingWindow.cleanedHistory, he]] at hlen
        simp only [Option.getD_none, List.length_nil, Nat.le_zero] at hlen
        rw [hlen] at hhl
        exact absurd (List.length_eq_zero.mp (Nat.le_zero.mp hhl)) hne
      · have hch : SlidingWindow.cleanedHistory ls.window_size t (some h)
            = some (SlidingWindow.cleanupLoop ls.window_size t h) := by
          simp [SlidingWindow.cleanedHistory, he]
        rw [hch] at hlen
        simp only [Option.getD_some] at hlen
        have hsub : List.Sublist (SlidingWindow.cleanupLoop ls.window_size t h) h :=
          List.dropWhile_sublist _
        have heq : SlidingWindow.cleanupLoop ls.window_size t h = h :=
          hsub.eq_of_length (Nat.le_antisymm hsub.length_le (le_trans hhl hlen))
        apply SlidingWindow.Limiter.ext_fields
        · exact SlidingWindow.cleanup_window_window_size ls u t
        · exact SlidingWindow.cleanup_window_max_requests ls u t
        · funext v
          rw [SlidingWindow.cleanup_window_history]
          by_cases hv : v = u
          · rw [if_pos hv, hu, hch, heq, hv, hu]
          · rw [if_neg hv]
  · intro hr
    have hc : Throttling.can_send_message lt u t = false := by
      rw [← Throttling.record_returns_can_send]
      exact hr
    exact Throttling.record_state_of_false hc

/-- Witness for C2: fresh limiters on which both `record_message` calls are
rejected (sliding window with `max_requests = 0`; throttle at clock reading
`0` with `min_interval = 10`). -/
theorem C2_rejection_noop_witness :
    ((SlidingWindow.record_message ⟨10, 0, fun _ => none⟩ "u" 0).1 = false →
      (SlidingWindow.record_message ⟨10, 0, fun _ => none⟩ "u" 0).2
        = (⟨10, 0, fun _ => none⟩ : SlidingWindow.Limiter)) ∧
    ((Throttling.record_message ⟨10, fun _ => none⟩ "u" 0).1 = false →
      (Throttling.record_message ⟨10, fun _ => none⟩ "u" 0).2
        = (⟨10, fun _ => none⟩ : Throttling.Limiter)) :=
  C2_rejection_noop ⟨10, 0, fun _ => none⟩ ⟨10, fun _ => none⟩ "u" 0
    (fun _ _ hv => Option.noConfusion hv)

/-- Counterexample to claim C4 as stated: on a freshly constructed throttle
limiter with (finite) `min_interval = 10`, at clock reading `t = 5 ≥ 0`,
`can_send_message` returns `False`, because the absent identity defaults to
last time `0.0` and `5 - 0 ≥ 10` fails. -/
theorem C4_counterexample :
    Throttling.can_send_message ⟨10, fun _ => none⟩ "u" 5 = false := by
  norm_num [Throttling.can_send_message]

/-- Claim C4, amended: on a freshly constructed sliding-window limiter with
`max_requests ≥ 1`, `can_send_message` returns `True` for every identity
and clock reading; on a freshly constructed throttle limiter,
`can_send_message` returns `True` exactly when the clock reading is at
least `min_interval` past the epoch default `0.0`. -/
theorem C4_amended (ws : ℚ) (mr : ℕ) (mi : ℚ) (u : String) (t : ℚ)
    (hmr : 1 ≤ mr) :
    (SlidingWindow.can_send_message ⟨ws, mr, fun _ => none⟩ u t).1 = true ∧
    (Throttling.can_send_message ⟨mi, fun _ => none⟩ u t = true ↔ mi ≤ t) := by
  constructor
  · rw [SlidingWindow.can_send_message_fst]
    simp only [SlidingWindow.cleanedHistory]
    simpa using hmr
  · simp [Throttling.can_send_message]

/-- Witness for C4 (amended) at concrete parameters. -/
theorem C4_amended_witness :
    (SlidingWindow.can_send_message ⟨10, 1, fun _ => none⟩ "u" 7).1 = true ∧
    (Throttling.can_send_message ⟨10, fun _ => none⟩ "u" 7 = true ↔ (10 : ℚ) ≤ 7) :=
  C4_amended 10 1 10 "u" 7 (by decide)

/-- Counterexample to claim C1 as stated: on a sliding-window limiter with
`max_requests = 0` and empty state, `time_until_next_allowed` returns `0.0`
(the identity is absent from the history dict) while `can_send_message`
returns `False` (`0 < 0` fails), so "`0.0` iff `can_send_message`" is
violated. -/
theorem C1_counterexample :
    (SlidingWindow.time_until_next_allowed ⟨10, 0, fun _ => none⟩ "u" 5).1 = 0 ∧
    (SlidingWindow.can_send_message ⟨10, 0, fun _ => none⟩ "u" 5).1 = false := by
  constructor
  · norm_num [SlidingWindow.time_until_next_allowed, SlidingWindow.cleanup_window]
  · norm_num [SlidingWindow.can_send_message, SlidingWindow.cleanup_window]

/-- Claim C1, amended: `time_until_next_allowed` never returns a negative
value for either limiter; for the throttle limiter it returns `0.0` exactly
when `can_send_message` is true; for the sliding-window limiter
`can_send_message = True` still implies a `0.0` wait, and (when
`max_requests ≥ 1`) a `0.0` wait implies either `can_send_message = True`
or the oldest retained timestamp lies exactly at the window boundary
`t - window_size`. -/
theorem C1_amended (ls : SlidingWindow.Limiter) (lt : Throttling.Limiter)
    (u : String) (t : ℚ) :
    0 ≤ (SlidingWindow.time_until_next_allowed ls u t).1 ∧
    0 ≤ Throttling.time_until_next_allowed lt u t ∧
    (Throttling.time_until_next_allowed lt u t = 0 ↔
      Throttling.can_send_message lt u t = true) ∧
    ((SlidingWindow.can_send_message ls u t).1 = true →
      (SlidingWindow.time_until_next_allowed ls u t).1 = 0) ∧
    (1 ≤ ls.max_requests →
      (SlidingWindow.time_until_next_allowed ls u t).1 = 0 →
      (SlidingWindow.can_send_message ls u t).1 = true ∨
      (((SlidingWindow.cleanup_window ls u t).user_history u).getD []).headD 0
        = t - ls.window_size) := by
  refine ⟨?_, ?_, ?_, ?_, ?_⟩
  · rw [SlidingWindow.time_until_next_allowed_fst]
    cases hc : SlidingWindow.cleanedHistory ls.window_size t (ls.user_history u) with
    | none => exact le_refl 0
    | some h =>
      by_cases hl : h.length < ls.max_requests
      · simp [hl]
      · simp [hl]
  · exact le_max_left 0 _
  · simp [Throttling.time_until_next_allowed, Throttling.can_send_message,
      max_eq_left_iff, sub_nonpos, ge_iff_le]
  · intro hcs
    rw [SlidingWindow.can_send_message_fst] at hcs
    rw [SlidingWindow.time_until_next_allowed_fst]
    cases hc : SlidingWindow.cleanedHistory ls.window_size t (ls.user_history u) with
    | none => rfl
    | some h =>
      rw [hc] at hcs
      simp only [Option.getD_some, decide_eq_true_eq] at hcs
      simp [hcs]
  · intro hmr h0
    rw [SlidingWindow.time_until_next_allowed_fst] at h0
    rw [SlidingWindow.can_send_message_fst]
    have hcu : (SlidingWindow.cleanup_window ls u t).user_history u
        = SlidingWindow.cleanedHistory ls.window_size t (ls.user_history u) := by
      simp [SlidingWindow.cleanup_window_history]
    cases hc : SlidingWindow.cleanedHistory ls.window_size t (ls.user_history u) with
    | none =>
      left
      simp only [hc, Option.getD_none, List.length_nil, decide_eq_true_eq]
      omega
    | some h =>
      by_cases hl : h.length < ls.max_requests
      · left
        simp [hc, hl]
      · right
        rw [hc] at h0
        simp only [hl, if_false] at h0
        have hle2 : ls.window_size - (t - h.headD 0) ≤ 0 := by
          by_contra hgt
          push_neg at hgt
          rw [max_eq_right (le_of_lt hgt)] at h0
          exact absurd h0 (ne_of_gt hgt)
        have hge : t - ls.window_size ≤ h.headD 0 :=
          SlidingWindow.cleanedHistory_head_ge ls.window_size t (ls.user_history u) hc
        rw [hcu, hc]
        simp only [Option.getD_some]
        linarith

/-- Witness for C1 (amended): the converse conjunct instantiated at a fresh
sliding-window limiter with `max_requests = 1` at clock reading `0`, where
the wait is `0`. -/
theorem C1_amended_witness :
    (SlidingWindow.can_send_message ⟨10, 1, fun _ => none⟩ "u" 0).1 = true ∨
    (((SlidingWindow.cleanup_window ⟨10, 1, fun _ => none⟩ "u" 0).user_history "u").getD
      []).headD 0 = 0 - (10 : ℚ) :=
  (C1_amended ⟨10, 1, fun _ => none⟩ ⟨10, fun _ => none⟩ "u" 0).2.2.2.2
    (by decide)
    (by norm_num [SlidingWindow.time_until_next_allowed, SlidingWindow.cleanup_window])

/-- Counterexample to claim C3 as stated: with `window_size = 10`,
`max_requests = 1` and one timestamp at `0`, querying at `t = 3` returns
`w = 7`, but `can_send_message` evaluated at `t + w = 10` still returns
`False` (the boundary timestamp `0` is not strictly older than
`10 - 10 = 0`, so it is retained), contradicting "`t + w` is the first
moment at which a new request is admitted". -/
theorem C3_counterexample :
    (SlidingWindow.time_until_next_allowed
      ⟨10, 1, fun v => if v = "u" then some [(0 : ℚ)] else none⟩ "u" 3).1 = 7 ∧
    (SlidingWindow.can_send_message
      ⟨10, 1, fun v => if v = "u" then some [(0 : ℚ)] else none⟩ "u" (3 + 7)).1
      = false := by
  constructor
  · norm_num [SlidingWindow.time_until_next_allowed, SlidingWindow.cleanup_window,
      SlidingWindow.cleanupLoop, List.dropWhile]
  · norm_num [SlidingWindow.can_send_message, SlidingWindow.cleanup_window,
      SlidingWindow.cleanupLoop, List.dropWhile]

/-- Claim C3, amended: for an identity whose pruned history holds exactly
`max_requests ≥ 1` timestamps at clock reading `t`, the returned wait `w`
equals `max(0, window_size - (t - earliest_timestamp))`; `can_send_message`
at time `t + w` (with no intervening records) still returns `False`, and it
returns `True` at every time strictly later than `t + w`. -/
theorem C3_amended (l : SlidingWindow.Limiter) (u : String) (t : ℚ) (h : List ℚ)
    (hu : l.user_history u = some h) (hne : h ≠ [])
    (hlen : h.length = l.max_requests) (hmr : 1 ≤ l.max_requests)
    (hhead : t - l.window_size ≤ h.headD 0) :
    (SlidingWindow.time_until_next_allowed l u t).1
        = max 0 (l.window_size - (t - h.headD 0)) ∧
    (SlidingWindow.can_send_message l u
        (t + (SlidingWindow.time_until_next_allowed l u t).1)).1 = false ∧
    (∀ t2 : ℚ, t + (SlidingWindow.time_until_next_allowed l u t).1 < t2 →
      (SlidingWindow.can_send_message l u t2).1 = true) := by
  obtain ⟨a, r, rfl⟩ := List.exists_cons_of_ne_nil hne
  simp only [List.headD_cons] at hhead ⊢
  have hploop : SlidingWindow.cleanupLoop l.window_size t (a :: r) = a :: r := by
    unfold SlidingWindow.cleanupLoop
    rw [List.dropWhile_cons_of_neg]
    simp only [decide_eq_true_eq, not_lt]
    linarith
  have hch : SlidingWindow.cleanedHistory l.window_size t (l.user_history u)
      = some (a :: r) := by
    rw [hu]
    simp [SlidingWindow.cleanedHistory, hploop]
  have hfst : (SlidingWindow.time_until_next_allowed l u t).1
      = max 0 (l.window_size - (t - a)) := by
    rw [SlidingWindow.time_until_next_allowed_fst, hch]
    simp [hlen]
  have h0le : (0 : ℚ) ≤ l.window_size - (t - a) := by linarith
  have hfst2 : (SlidingWindow.time_until_next_allowed l u t).1
      = l.window_size - (t - a) := by
    rw [hfst, max_eq_right h0le]
  have hcs : ∀ s : ℚ, s - l.window_size = a →
      (SlidingWindow.can_send_message l u s).1 = false := by
    intro s hs
    rw [SlidingWindow.can_send_message_fst, hu]
    have hloop : SlidingWindow.cleanupLoop l.window_size s (a :: r) = a :: r := by
      unfold SlidingWindow.cleanupLoop
      rw [List.dropWhile_cons_of_neg]
      simp [hs]
    simp [SlidingWindow.cleanedHistory, hloop, hlen]
  refine ⟨by rw [hfst], ?_, ?_⟩
  · apply hcs
    rw [hfst2]
    ring
  · intro t2 ht2
    rw [hfst2] at ht2
    have ha2 : a < t2 - l.window_size := by linarith
    rw [SlidingWindow.can_send_message_fst, hu]
    have hloop : SlidingWindow.cleanupLoop l.window_size t2 (a :: r)
        = SlidingWindow.cleanupLoop l.window_size t2 r := by
      unfold SlidingWindow.cleanupLoop
      exact List.dropWhile_cons_of_pos (by simpa using ha2)
    have hrlen : (SlidingWindow.cleanupLoop l.window_size t2 r).length ≤ r.length :=
      (List.dropWhile_sublist _).length_le
    have hmax : r.length + 1 = l.max_requests := by simpa using hlen
    by_cases he : (SlidingWindow.cleanupLoop l.window_size t2 r).isEmpty
    · simp [SlidingWindow.cleanedHistory, hloop, he]
      omega
    · simp [SlidingWindow.cleanedHistory, hloop, he]
      omega

/-- Witness for C3 (amended): `window_size = 10`, `max_requests = 1`, one
timestamp at `0`, queried at `t = 3`; the wait is `max 0 (10 - (3 - 0))`. -/
theorem C3_amended_witness :
    (SlidingWindow.time_until_next_allowed
      ⟨10, 1, fun v => if v = "u" then some [(0 : ℚ)] else none⟩ "u" 3).1
      = max 0 (10 - (3 - ([(0 : ℚ)].headD 0))) :=
  (C3_amended ⟨10, 1, fun v => if v = "u" then some [(0 : ℚ)] else none⟩ "u" 3
    [(0 : ℚ)] (by simp) (by simp) rfl (le_refl 1) (by norm_num)).1

/-- Claim C7: immediately after `_cleanup_window(identity, t)` — assuming the
identity's stored timestamps are nondecreasing and not in the future, as
recording with a nondecreasing clock guarantees — every timestamp retained
for that identity lies within `[t - window_size, t]`, and no identity in
the mapping holds an empty sequence (an identity whose sequence becomes
empty is deleted), provided no entry was empty beforehand. -/
theorem C7_cleanup_window_invariant (l : SlidingWindow.Limiter) (u : String) (t : ℚ)
    (hsorted : ∀ h, l.user_history u = some h → h.Pairwise (· ≤ ·))
    (hle : ∀ h x, l.user_history u = some h → x ∈ h → x ≤ t)
    (hne : ∀ v h, l.user_history v = some h → h ≠ []) :
    (∀ h x, (SlidingWindow.cleanup_window l u t).user_history u = some h → x ∈ h →
      t - l.window_size ≤ x ∧ x ≤ t) ∧
    (∀ v h, (SlidingWindow.cleanup_window l u t).user_history v = some h → h ≠ []) := by
  have hcu : (SlidingWindow.cleanup_window l u t).user_history u
      = SlidingWindow.cleanedHistory l.window_size t (l.user_history u) := by
    simp [SlidingWindow.cleanup_window_history]
  constructor
  · intro h x hch hx
    rw [hcu] at hch
    cases hu : l.user_history u with
    | none => rw [hu] at hch; simp [SlidingWindow.cleanedHistory] at hch
    | some h0 =>
      rw [hu] at hch
      by_cases he : (SlidingWindow.cleanupLoop l.window_size t h0).isEmpty
      · simp [SlidingWindow.cleanedHistory, he] at hch
      · have hh : h = SlidingWindow.cleanupLoop l.window_size t h0 := by
          simp only [SlidingWindow.cleanedHistory] at hch
          rw [if_neg he] at hch
          exact (Option.some_inj.mp hch).symm
        subst hh
        constructor
        · exact mem_dropWhile_lt_ge (hsorted h0 hu) x hx
        · exact hle h0 x hu ((List.dropWhile_sublist _).subset hx)
  · intro v h hch
    rw [SlidingWindow.cleanup_window_history] at hch
    by_cases hv : v = u
    · rw [if_pos hv] at hch
      exact SlidingWindow.cleanedHistory_ne_nil _ _ _ hch
    · rw [if_neg hv] at hch
      exact hne v h hch

/-- Witness for C7 at a concrete state holding one in-window timestamp. -/
theorem C7_cleanup_window_invariant_witness :
    (∀ h x, (SlidingWindow.cleanup_window
        ⟨10, 1, fun v => if v = "u" then some [(2 : ℚ)] else none⟩ "u" 3).user_history "u"
        = some h → x ∈ h → (3 : ℚ) - 10 ≤ x ∧ x ≤ 3) ∧
    (∀ v h, (SlidingWindow.cleanup_window
        ⟨10, 1, fun v => if v = "u" then some [(2 : ℚ)] else none⟩ "u" 3).user_history v
        = some h → h ≠ []) :=
  C7_cleanup_window_invariant
    ⟨10, 1, fun v => if v = "u" then some [(2 : ℚ)] else none⟩ "u" 3
    (by intro h hh; simp at hh; subst hh; simp)
    (by intro h x hh hx; simp at hh; subst hh; simp at hx; subst hx; norm_num)
    (by
      intro v h hv
      by_cases hvu : v = "u"
      · simp [hvu] at hv
        subst hv
        simp
      · simp [hvu] at hv)

/-- Claim C10: in every state of the sliding-window limiter reachable by any
sequence of the three public operations starting from construction, every
identity's stored history holds at most `max_requests` timestamps —
`record_message` appends only after pruning and only when the pruned count
is strictly below `max_requests`. -/
theorem C10_capacity (ws : ℚ) (mr : ℕ) (l : SlidingWindow.Limiter)
    (hr : SlidingWindow.Reachable ws mr l) (u : String) :
    ((l.user_history u).getD []).length ≤ mr := by
  suffices hmain : l.max_requests = mr ∧
      ∀ v, ((l.user_history v).getD []).length ≤ mr by exact hmain.2 u
  induction hr with
  | init => exact ⟨rfl, fun v => by simp⟩
  | can_send_step l2 u2 t2 _ ih =>
    refine ⟨?_, fun v => ?_⟩
    · rw [SlidingWindow.can_send_message_snd, SlidingWindow.cleanup_window_max_requests]
      exact ih.1
    · rw [SlidingWindow.can_send_message_snd]
      exact le_trans (SlidingWindow.cleanup_window_length_le l2 u2 t2 v) (ih.2 v)
  | wait_step l2 u2 t2 _ ih =>
    refine ⟨?_, fun v => ?_⟩
    · rw [SlidingWindow.time_until_next_allowed_snd, SlidingWindow.cleanup_window_max_requests]
      exact ih.1
    · rw [SlidingWindow.time_until_next_allowed_snd]
      exact le_trans (SlidingWindow.cleanup_window_length_le l2 u2 t2 v) (ih.2 v)
  | record_step l2 u2 t2 _ ih =>
    refine ⟨by rw [SlidingWindow.record_message_max_requests]; exact ih.1, fun v => ?_⟩
    by_cases hc : (SlidingWindow.can_send_message l2 u2 t2).1
    · by_cases hv : v = u2
      · subst hv
        have hlt : (((SlidingWindow.cleanup_window l2 v t2).user_history v).getD []).length
            < l2.max_requests := by
          have hc2 := hc
          rw [SlidingWindow.can_send_message_fst] at hc2
          rw [show (SlidingWindow.cleanup_window l2 v t2).user_history v
              = SlidingWindow.cleanedHistory l2.window_size t2 (l2.user_history v) by
            simp [SlidingWindow.cleanup_window_history]]
          simpa using hc2
        have hist : (SlidingWindow.record_message l2 v t2).2.user_history v
            = some ((((SlidingWindow.cleanup_window l2 v t2).user_history v).getD []) ++ [t2]) := by
          rw [SlidingWindow.record_message_snd_of_true hc]
          simp
        rw [hist]
        simp only [Option.getD_some, List.length_append, List.length_singleton]
        have hm2 := ih.1
        omega
      · rw [SlidingWindow.record_message_snd_of_true hc]
        simp only [hv, if_false]
        calc (((SlidingWindow.cleanup_window l2 u2 t2).user_history v).getD []).length
            ≤ ((l2.user_history v).getD []).length :=
              SlidingWindow.cleanup_window_length_le l2 u2 t2 v
          _ ≤ mr := ih.2 v
    · have hc2 : (SlidingWindow.can_send_message l2 u2 t2).1 = false :=
        Bool.not_eq_true _ ▸ hc
      rw [SlidingWindow.record_message_snd_of_false hc2]
      exact le_trans (SlidingWindow.cleanup_window_length_le l2 u2 t2 v) (ih.2 v)

/-- Witness for C10 at the freshly constructed limiter. -/
theorem C10_capacity_witness :
    (((⟨10, 1, fun _ => none⟩ : SlidingWindow.Limiter).user_history "u").getD []).length ≤ 1 :=
  C10_capacity 10 1 ⟨10, 1, fun _ => none⟩ SlidingWindow.Reachable.init "u"
